import Mathlib

/-!
Verification of astropysics/models/modcore.py: a shallow embedding of the
parametric-model framework (parameter storage, auto-parameter synthesis,
the fitting pipeline, composite models and the module-level model registry),
together with theorems settling the spec's claims about it.

Modelling conventions: Python floats are modelled as ℚ, 1-D numpy arrays as
List ℚ (shape = length), instance attribute storage as a String-keyed
partial map, and raised exceptions as values of `PyError` carried in
`Except` (or paired with the post-call object state where the claim is about
mutation).
-/

namespace Modcore

/-- Exception kinds modcore.py raises. `modelTypeError` embeds the module's
own ModelTypeError class (lines 16-22); the rest are Python builtins. -/
inductive PyError where
  | modelTypeError
  | valueError
  | keyError
  | typeError
  | nameError
  | indexError
  | syntaxError
deriving DecidableEq

/-- A FunctionModel instance (modcore.py lines 212-313).  `f` is the model
function f(x, *params) (first argument the data vector, then one positional
argument per parameter, passed in `_pars` order); `pars` embeds the `_pars`
tuple; `attrs` is the instance attribute dictionary restricted to parameter
names (`none` = the attribute was never set); `defaultparval` embeds the
class attribute of the same name (line 234); `fitteddata` and `lastfit` are
the post-fit caches (lines 235, 502, 514-515). -/
structure FunctionModel where
  f : List ℚ → List ℚ → List ℚ
  pars : List String
  attrs : String → Option ℚ
  defaultparval : ℚ := 1
  fitteddata : Option (List ℚ × List ℚ) := none
  lastfit : Option (List ℚ) := none

/-- Python setattr(self, p, v) for a parameter with a scalar value (the
`_AutoParameter.__set__` scalar check, lines 86-89, accepts every ℚ). -/
def setattr (m : FunctionModel) (p : String) (v : ℚ) : FunctionModel :=
  { m with attrs := fun k => if k = p then some v else m.attrs k }

/-- The value getattr(self, p) produces for parameter `p` once attributes are
materialized: the stored value, or the lazily-initialized default. -/
def valueOf (m : FunctionModel) (p : String) : ℚ :=
  (m.attrs p).getD m.defaultparval

/-- FunctionModel.params (lines 274-279): the `_pars` tuple. -/
def params (m : FunctionModel) : List String := m.pars

/-- The parameter value tuple in `_pars` order, read through `valueOf`. -/
def parvalsPure (m : FunctionModel) : List ℚ := m.pars.map (valueOf m)

/-- FunctionModel._autoInitPars (lines 308-313): sets every parameter
attribute to `defaultparval`. -/
def autoInitPars (m : FunctionModel) : FunctionModel :=
  { m with attrs := fun k => if k ∈ m.pars then some m.defaultparval else m.attrs k }

/-- FunctionModel._getParvals (lines 281-286): returns the attribute value
tuple; if some attribute is missing (AttributeError) it runs `_autoInitPars`
and retries, which then finds every attribute set.  Returns the tuple
together with the possibly-mutated model. -/
def getParvals (m : FunctionModel) : List ℚ × FunctionModel :=
  if m.pars.all (fun p => (m.attrs p).isSome) then
    (parvalsPure m, m)
  else
    (parvalsPure (autoInitPars m), autoInitPars m)

/-- A Python loop `for k, v in items: setattr(self, k, v)`. -/
def setItems (m : FunctionModel) : List (String × ℚ) → FunctionModel
  | [] => m
  | kv :: rest => setItems (setattr m kv.1 kv.2) rest

/-- FunctionModel._setParvals (lines 287-291): more values than parameters
raises ValueError before any assignment; otherwise `zip` truncates at the
shorter sequence and each pair is assigned in order.  Returns the model
after the call and the outcome. -/
def setParvals (m : FunctionModel) (newpars : List ℚ) :
    FunctionModel × Except PyError Unit :=
  if newpars.length > m.pars.length then (m, .error .valueError)
  else (setItems m (m.pars.zip newpars), .ok ())

/-- FunctionModel._getPardict (lines 294-299) as the resulting dictionary's
lookup function, with the same AttributeError / `_autoInitPars` retry as
`_getParvals`. -/
def getPardict (m : FunctionModel) : (String → Option ℚ) × FunctionModel :=
  if m.pars.all (fun p => (m.attrs p).isSome) then
    (fun k => if k ∈ m.pars then m.attrs k else none, m)
  else
    (fun k => if k ∈ (autoInitPars m).pars then (autoInitPars m).attrs k else none,
     autoInitPars m)

/-- FunctionModel._setPardict (lines 300-305): first checks every key is a
parameter name (KeyError before any mutation otherwise), then assigns every
pair. -/
def setPardict (m : FunctionModel) (d : List (String × ℚ)) :
    FunctionModel × Except PyError Unit :=
  if d.all (fun kv => kv.1 ∈ m.pars) then (setItems m d, .ok ())
  else (m, .error .keyError)

/-- FunctionModel.__call__ (lines 260-270): `self._filterfunc(arr, *self.parvals)`
with the default filter function f.  Only the value tuple matters for the
output; `getParvals` supplies it. -/
def callModel (m : FunctionModel) (x : List ℚ) : List ℚ :=
  m.f x (getParvals m).1

/-- Python substring containment `sub in s`. -/
def pyIn (sub s : String) : Bool :=
  s.data.tails.any (fun t => sub.data.isPrefixOf t)

/-- Insertion into a sorted list (ascending), for `np.median`. -/
def insertSorted (a : ℚ) : List ℚ → List ℚ
  | [] => [a]
  | b :: bs => if a ≤ b then a :: b :: bs else b :: insertSorted a bs

/-- Ascending sort of a rational list. -/
def sortedQ (l : List ℚ) : List ℚ := l.foldr insertSorted []

/-- Numpy median: middle element of the sorted data, or the mean of the two
middle elements for even length (0 stands in for the nan of an empty input,
which no claim reaches). -/
def npMedian (l : List ℚ) : ℚ :=
  let s := sortedQ l
  let n := s.length
  if n = 0 then 0
  else if n % 2 = 1 then s.getD (n / 2) 0
  else (s.getD (n / 2 - 1) 0 + s.getD (n / 2) 0) / 2

/-- Core of FunctionModel.fitData (lines 315-517) once both shape checks have
passed, for the default method resolution of a model without `_customFit`
('leastsq', line 389-393), no fixed parameters and `fitf` False: the residual
function `g` is `w*(y - f(x,v))`, or `w*(1 - f(x,v)/y)` when the contraction
string contains 'frac' (lines 433-440); `opt.leastsq` is the scipy capability
`lsq` (objective and initial guess in, best-fit vector out).  Afterwards the
raw result is stored in `lastfit` (line 502), the best-fit values are
assigned back onto the parameters if `updatepars` (lines 510-512), and the
data is stored in `fitteddata` if `savedata` (lines 514-515). -/
def fitDataMain (lsq : (List ℚ → List ℚ) → List ℚ → List ℚ)
    (m : FunctionModel) (x y w : List ℚ) (contraction : String)
    (updatepars savedata : Bool) : FunctionModel × Except PyError (List ℚ) :=
  let g : List ℚ → List ℚ :=
    if pyIn "frac" contraction then
      fun v => List.zipWith (· * ·) w
        (List.zipWith (fun yi fi => 1 - fi / yi) y (m.f x v))
    else
      fun v => List.zipWith (· * ·) w
        (List.zipWith (fun yi fi => yi - fi) y (m.f x v))
  let res := lsq g (parvalsPure m)
  let m1 : FunctionModel := { m with lastfit := some res }
  let m2 := if updatepars then setItems m1 (m1.pars.zip res) else m1
  let m3 := if savedata then { m2 with fitteddata := some (x, y) } else m2
  (m3, .ok res)

/-- FunctionModel.fitData (lines 315-517): the first statement after choosing
the fit function evaluates the model on `x` with the current parameter
values and raises ModelTypeError if the output shape does not match `y`
(lines 378-379); a weights array of the wrong shape is the next
ModelTypeError (lines 383-385); only then does any fitting (and any mutation
of the model) happen.  The pair returned is the model state after the call
and the outcome. -/
def fitData (lsq : (List ℚ → List ℚ) → List ℚ → List ℚ)
    (m0 : FunctionModel) (x y : List ℚ) (weights : Option (List ℚ))
    (contraction : String) (updatepars savedata : Bool) :
    FunctionModel × Except PyError (List ℚ) :=
  let pv := (getParvals m0).1
  let m := (getParvals m0).2
  if (m.f x pv).length ≠ y.length then (m, .error .modelTypeError)
  else
    match weights with
    | some wl =>
      if wl.length ≠ y.length then (m, .error .modelTypeError)
      else fitDataMain lsq m x y wl contraction updatepars savedata
    | none => fitDataMain lsq m x y (List.replicate y.length 1) contraction updatepars savedata

/-- What the per-point residual builder `g1` of fitData evaluates to for the
generic scalar-minimizer methods (lines 442-467): an array, except that the
non-fractional raw branch (lines 464-467) executes `return np.diff` — the
numpy library function object itself, not the local residual vector `diff`. -/
inductive NpValue where
  | arr : List ℚ → NpValue
  | npdiffFunc : NpValue

/-- The `g1` construction of fitData (lines 442-467): 'frac' selects the
fractional residual `1 - f(x,v)/y`, else the raw residual `y - f(x,v)`;
'sq' squares it elementwise, 'abs' takes absolute values, and otherwise the
fractional branch returns the residual itself while the non-fractional
branch returns the `np.diff` function object (line 467). -/
def g1Code (contraction : String) (f : List ℚ → List ℚ → List ℚ)
    (v x y : List ℚ) : NpValue :=
  if pyIn "frac" contraction then
    let diff := List.zipWith (fun yi fi => 1 - fi / yi) y (f x v)
    if pyIn "sq" contraction then .arr (diff.map (fun d => d * d))
    else if pyIn "abs" contraction then .arr (diff.map (fun d => |d|))
    else .arr diff
  else
    let diff := List.zipWith (fun yi fi => yi - fi) y (f x v)
    if pyIn "sq" contraction then .arr (diff.map (fun d => d * d))
    else if pyIn "abs" contraction then .arr (diff.map (fun d => |d|))
    else .npdiffFunc

/-- The scalar objective `g` fed to the generic scalar minimizers (fmin,
fmin_powell, ..., lines 468-500): the contraction word picks the reduction
while `g` is being built (an unknown word raises ValueError at line 477,
before any evaluation), and evaluating `g` computes `reduction(w * g1(...))`
(lines 469-475).  When `g1` produced the `np.diff` function object,
`w * g1(...)` multiplies an array by a function object, which raises
TypeError. -/
def scalarObjective (contraction : String) (w : List ℚ)
    (f : List ℚ → List ℚ → List ℚ) (v x y : List ℚ) : Except PyError ℚ :=
  let reduce : Option (List ℚ → ℚ) :=
    if pyIn "sum" contraction then some (fun l => l.sum)
    else if pyIn "mean" contraction then some (fun l => l.sum / (l.length : ℚ))
    else if pyIn "median" contraction then some npMedian
    else if pyIn "prod" contraction then some (fun l => l.prod)
    else none
  match reduce with
  | none => .error .valueError
  | some r =>
    match g1Code contraction f v x y with
    | .npdiffFunc => .error .typeError
    | .arr a => .ok (r (List.zipWith (· * ·) w a))

/-- Modelled from the claim: the scalar objective it states for a raw
(non-fractional, non-squared) contraction — the chosen reduction applied to
the weighted raw residual vector `w * (y - f(x, v))`. -/
def rawResidualReduced (reduction : List ℚ → ℚ)
    (w : List ℚ) (f : List ℚ → List ℚ → List ℚ) (v x y : List ℚ) : ℚ :=
  reduction (List.zipWith (· * ·) w (List.zipWith (fun yi fi => yi - fi) y (f x v)))

/-- FunctionModel.chi2Data (lines 568-593), explicit-data path.  The shape
check at line 583 is written `self(x, *self.parvals)`; `__call__` accepts
only `x`, so for a model with one or more parameters that call itself raises
TypeError.  For a zero-parameter model the statistic lines run as written:
`chi2 = (y-self(x))**2/self(x)` then `chi2 = np.sum(chi2*chi2)` (lines
590-591), `dof = n - m - 1` (line 588), returning
`(chi2, chi2/dof, chisqprob(chi2, dof))` with scipy.stats.chisqprob supplied
as a capability. -/
def chi2Data (chisqprob : ℚ → ℤ → ℚ) (m : FunctionModel) (x y : List ℚ) :
    Except PyError (ℚ × ℚ × ℚ) :=
  if m.pars.length ≠ 0 then .error .typeError
  else if (callModel m x).length ≠ y.length then .error .modelTypeError
  else
    let n : ℤ := (y.length : ℤ)
    let npar : ℤ := (m.pars.length : ℤ)
    let dof : ℤ := n - npar - 1
    let c1 := List.zipWith (fun yi fi => (yi - fi) ^ 2 / fi) y (callModel m x)
    let chi2 := (c1.map (fun c => c * c)).sum
    .ok (chi2, chi2 / (dof : ℚ), chisqprob chi2 dof)

/-- Modelled from the claim (the standard single-square Pearson statistic the
spec prescribes): sum((y - model(x))^2 / model(x)). -/
def chi2Pearson (ys fs : List ℚ) : ℚ :=
  (List.zipWith (fun yi fi => (yi - fi) ^ 2 / fi) ys fs).sum

/-- FunctionModel.bootstrapFits (lines 595-643), explicit-data path.  After
the two shape checks (lines 613-617) the body executes `if prefit:` at line
619; `prefit` is defined nowhere in the function, its arguments or the
module, so every call that passes the checks raises NameError there — the
resampling loop below likewise reads the undefined names `xi`, `yi`, `vs`
and `kwargs`.  `n` is the requested number of bootstrap iterations. -/
def bootstrapFits (m0 : FunctionModel) (x y : List ℚ) (n : ℕ) :
    FunctionModel × Except PyError (List (String × List ℚ)) :=
  let m := (getParvals m0).2
  if (callModel m0 x).length ≠ y.length then (m, .error .modelTypeError)
  else if y.length ≠ x.length then (m, .error .modelTypeError)
  else (m, .error .nameError)

/-- The relevant fields of Python inspect.getargspec applied to a model's
evaluation function: the positional argument names, whether a `*args` and a
`**kwargs` catch-all are declared, and the declared trailing default values
(aligned with the last arguments). -/
structure ArgSpec where
  args : List String
  varargs : Bool
  varkw : Bool
  defaults : List ℚ

/-- AutoParamsMeta.__init__ (lines 114-153): a `**kwargs` catch-all raises
SyntaxError (lines 127-128); `self` (or `cls`) is removed if present and
then the first remaining argument — the data vector — is deleted (lines
131-138, IndexError if there is none); if the defaults do not cover every
remaining argument they are front-padded with 1 (lines 140-144); each
remaining argument paired with its default becomes one parameter descriptor
(lines 146-147).  Returns the (name, default) pairs and whether the class
has open arity (`*args` present, lines 149-153). -/
def autoParamsOfSpec (sp : ArgSpec) : Except PyError (List (String × ℚ) × Bool) :=
  if sp.varkw then .error .syntaxError
  else
    let args1 := if "self" ∈ sp.args then sp.args.erase "self"
                 else sp.args.erase "cls"
    match args1 with
    | [] => .error .indexError
    | _ :: args2 =>
      let ds := if args2.length = sp.defaults.length then sp.defaults
                else List.replicate (args2.length - sp.defaults.length) 1 ++ sp.defaults
      .ok (args2.zip ds, sp.varargs)

/-- The model AutoParamsMeta.__call__ (lines 155-209) constructs for a
fixed-arity class when no initial parameter values are passed: `_pars` is
the synthesized name tuple and each `_AutoParameter` descriptor reads back
its declared default (lines 79-84). -/
def mkAutoModel (f : List ℚ → List ℚ → List ℚ) (ps : List (String × ℚ)) :
    FunctionModel :=
  { f := f, pars := ps.map Prod.fst, attrs := fun k => List.lookup k ps }

/-- The operator tuple CompositeModel1D.__init__ builds from a
single-character operation string (lines 1317-1319, 1326): one copy per
adjacent pair of submodels. -/
def compositeOps (operation : String) (nmods : ℕ) : List String :=
  List.replicate (nmods - 1) operation

/-- CompositeModel1D.f (lines 1390-1401) for a composite of exactly two
submodels and one binary operator.  The composite's parameter arguments are
routed through `_argmap` to the owning submodels (the first submodel's
parameters come first, lines 1335-1339, and an assignment through the
composite assigns on the submodel, lines 1383-1388); then each submodel is
evaluated as `m.f(x, *m.parvals)` (line 1394) and `eval(self._opstr)` with
`_opstr = 'mval[0]<op>mval[1]'` (lines 1328-1330) applies the binary
operator to the two numpy arrays elementwise.  `_filters` is None at
construction (line 1372), so no filter is applied.  An operator outside
+,-,* is not needed by any claim and yields none. -/
def compositeF2 (op : String) (ma mb : FunctionModel) (x argsa argsb : List ℚ) :
    Option (List ℚ) :=
  let ma2 := setItems ma (ma.pars.zip argsa)
  let mb2 := setItems mb (mb.pars.zip argsb)
  let mval0 := ma2.f x (parvalsPure ma2)
  let mval1 := mb2.f x (parvalsPure mb2)
  if op = "+" then some (List.zipWith (· + ·) mval0 mval1)
  else if op = "-" then some (List.zipWith (· - ·) mval0 mval1)
  else if op = "*" then some (List.zipWith (· * ·) mval0 mval1)
  else none

/-- A model class as the registry stores it: the Python class `__name__`,
whether it subclasses ParametricModel, and an identity tag telling distinct
classes apart. -/
structure ModelClass where
  clsname : String
  isParametricSubclass : Bool
  uid : ℕ
deriving DecidableEq

/-- The module-level `__model_registry` dictionary (line 2132). -/
def Registry : Type := String → Option ModelClass

/-- The registry as the module initializes it: empty. -/
def emptyRegistry : Registry := fun _ => none

/-- Python str.lower() for the ASCII class names involved. -/
def pyLower (s : String) : String := ⟨s.data.map Char.toLower⟩

/-- Removal of every (leftmost-first, non-overlapping) occurrence of `pat`,
as Python str.replace(pat, '') performs it.  The fuel argument is the input
length; each step consumes at least one character, so it never runs out on
the inputs used. -/
def removeAllSubFuel (pat : List Char) : ℕ → List Char → List Char
  | _, [] => []
  | 0, s => s
  | fuel + 1, c :: cs =>
    if pat.isPrefixOf (c :: cs) && !pat.isEmpty then
      removeAllSubFuel pat fuel (List.drop (pat.length - 1) cs)
    else c :: removeAllSubFuel pat fuel cs

/-- Python s.replace(pat, ''). -/
def pyRemoveAll (pat s : String) : String :=
  ⟨removeAllSubFuel pat.data s.data.length s.data⟩

/-- register_model (lines 2133-2158): a non-ParametricModel class raises
TypeError; the name (the class name when none is given) is lower-cased and,
when `stripmodel`, every occurrence of 'model' is removed; then the code
executes `if overwrite and name in __model_registry: raise KeyError(...)`
(lines 2155-2156) and otherwise assigns the registry entry. -/
def register_model (reg : Registry) (model : ModelClass) (name : Option String)
    (overwrite stripmodel : Bool) : Except PyError Registry :=
  if !model.isParametricSubclass then .error .typeError
  else
    let n1 := pyLower (name.getD model.clsname)
    let n2 := if stripmodel then pyRemoveAll "model" n1 else n1
    if overwrite && (reg n2).isSome then .error .keyError
    else .ok (fun k => if k = n2 then some model else reg k)

/-- get_model (lines 2160-2191) for a string argument: plain dictionary
lookup `__model_registry[model]` (line 2176), KeyError when absent. -/
def get_model (reg : Registry) (name : String) : Except PyError ModelClass :=
  match reg name with
  | some c => .ok c
  | none => .error .keyError

/- Concrete instances used to evaluate the embedded code on specific
inputs. -/

/-- A parameterless model whose function returns its input unchanged. -/
def demoId : FunctionModel :=
  { f := fun x _ => x, pars := [], attrs := fun _ => none }

/-- A parameterless model that is constantly 2 (used against chi2Data). -/
def demoConst2 : FunctionModel :=
  { f := fun x _ => x.map (fun _ => 2), pars := [], attrs := fun _ => none }

/-- A one-parameter model (used to reach the chi2Data TypeError path). -/
def demoOnePar : FunctionModel :=
  { f := fun x _ => x, pars := ["a"],
    attrs := fun k => if k = "a" then some 1 else none }

/-- A three-parameter model with values a=10, b=20, c=30. -/
def demo3 : FunctionModel :=
  { f := fun x _ => x, pars := ["a", "b", "c"],
    attrs := fun k =>
      if k = "a" then some 10 else if k = "b" then some 20
      else if k = "c" then some 30 else none }

/-- A one-parameter scaling model f(x, a) = a*x with a = 2. -/
def demoScale : FunctionModel :=
  { f := fun x v => x.map (fun t => v.headD 1 * t), pars := ["a"],
    attrs := fun k => if k = "a" then some 2 else none }

/-- A one-parameter constant model f(x, c) = c with c = 5. -/
def demoConst5 : FunctionModel :=
  { f := fun x v => x.map (fun _ => v.headD 1), pars := ["c"],
    attrs := fun k => if k = "c" then some 5 else none }

/-- A degenerate optimizer capability that returns the initial guess. -/
def lsqId : (List ℚ → List ℚ) → List ℚ → List ℚ := fun _ v => v

/-- A stand-in class for a Gaussian model. -/
def gaussC : ModelClass := { clsname := "GaussModel", isParametricSubclass := true, uid := 0 }

/-- A second, distinct registered class with the same registry name. -/
def otherC : ModelClass := { clsname := "OtherModel", isParametricSubclass := true, uid := 1 }

/-- The registry after registering `gaussC` under 'gauss'. -/
def regGauss : Registry := fun k => if k = "gauss" then some gaussC else none

/-- The registry after a second registration of `otherC` under 'gauss'. -/
def regGaussOther : Registry := fun k => if k = "gauss" then some otherC else regGauss k

/- Basic frame lemmas for the attribute machinery. -/

@[simp]
theorem setattr_pars (m : FunctionModel) (p : String) (v : ℚ) :
    (setattr m p v).pars = m.pars := rfl

@[simp]
theorem setattr_f (m : FunctionModel) (p : String) (v : ℚ) :
    (setattr m p v).f = m.f := rfl

@[simp]
theorem setattr_default (m : FunctionModel) (p : String) (v : ℚ) :
    (setattr m p v).defaultparval = m.defaultparval := rfl

theorem valueOf_setattr_self (m : FunctionModel) (p : String) (v : ℚ) :
    valueOf (setattr m p v) p = v := by
  simp [valueOf, setattr]

theorem valueOf_setattr_ne (m : FunctionModel) (p q : String) (v : ℚ)
    (h : q ≠ p) : valueOf (setattr m p v) q = valueOf m q := by
  simp [valueOf, setattr, h]

theorem setItems_pars : ∀ (d : List (String × ℚ)) (m : FunctionModel),
    (setItems m d).pars = m.pars
  | [], _ => rfl
  | _ :: rest, m => setItems_pars rest _

theorem setItems_f : ∀ (d : List (String × ℚ)) (m : FunctionModel),
    (setItems m d).f = m.f
  | [], _ => rfl
  | _ :: rest, m => setItems_f rest _

theorem setItems_default : ∀ (d : List (String × ℚ)) (m : FunctionModel),
    (setItems m d).defaultparval = m.defaultparval
  | [], _ => rfl
  | _ :: rest, m => setItems_default rest _

theorem setItems_attrs_notMem : ∀ (d : List (String × ℚ)) (m : FunctionModel)
    (q : String), q ∉ d.map Prod.fst → (setItems m d).attrs q = m.attrs q := by
  intro d
  induction d with
  | nil => intro m q _; rfl
  | cons kv rest ih =>
    intro m q hq
    simp only [List.map_cons, List.mem_cons] at hq
    push_neg at hq
    rw [setItems, ih _ q hq.2]
    simp [setattr, hq.1]

theorem valueOf_setItems_notMem (d : List (String × ℚ)) (m : FunctionModel)
    (q : String) (hq : q ∉ d.map Prod.fst) :
    valueOf (setItems m d) q = valueOf m q := by
  rw [valueOf, valueOf, setItems_attrs_notMem d m q hq, setItems_default]

/-- Effect of the assignment loop `for a, v in zip(pars, vals)` on the values
subsequently read back in `pars` order: the first `vals.length` parameters
take the new values, the rest keep their old values. -/
theorem map_valueOf_setItems_zip :
    ∀ (ps : List String) (vs : List ℚ) (m : FunctionModel), ps.Nodup →
    vs.length ≤ ps.length →
    ps.map (valueOf (setItems m (ps.zip vs))) =
      vs ++ (ps.drop vs.length).map (valueOf m) := by
  intro ps
  induction ps with
  | nil =>
    intro vs m _ hlen
    rw [List.length_nil, Nat.le_zero, List.length_eq_zero] at hlen
    subst hlen
    rfl
  | cons p ps ih =>
    intro vs m hnd hlen
    cases vs with
    | nil => simp [setItems]
    | cons v vs =>
      have hpnotin : p ∉ ps := (List.nodup_cons.1 hnd).1
      have hzipsub : p ∉ ((ps.zip vs).map Prod.fst) := by
        intro hmem
        obtain ⟨⟨q, w⟩, hz, hfst⟩ := List.mem_map.1 hmem
        exact hpnotin (hfst ▸ (List.of_mem_zip hz).1)
      rw [List.zip_cons_cons, setItems, List.map_cons]
      rw [valueOf_setItems_notMem _ _ _ hzipsub, valueOf_setattr_self]
      have hlen' : vs.length ≤ ps.length := by
        simpa using Nat.le_of_succ_le_succ (by simpa using hlen)
      rw [ih vs (setattr m p v) (List.nodup_cons.1 hnd).2 hlen']
      simp only [List.length_cons, List.drop_succ_cons, List.cons_append,
        List.cons.injEq, true_and]
      congr 1
      apply List.map_congr_left
      intro q hq
      have hqps : q ∈ ps := List.mem_of_mem_drop hq
      exact valueOf_setattr_ne m p q v (fun h => hpnotin (h ▸ hqps))

theorem getParvals_of_init (m : FunctionModel)
    (h : ∀ p ∈ m.pars, (m.attrs p).isSome = true) :
    getParvals m = (parvalsPure m, m) := by
  rw [getParvals, if_pos]
  rw [List.all_eq_true]
  exact h

theorem callModel_of_init (m : FunctionModel) (x : List ℚ)
    (h : ∀ p ∈ m.pars, (m.attrs p).isSome = true) :
    callModel m x = m.f x (parvalsPure m) := by
  rw [callModel, getParvals_of_init m h]

theorem lookup_isSome_of_mem_keys : ∀ (d : List (String × ℚ)) (q : String),
    q ∈ d.map Prod.fst → (List.lookup q d).isSome = true := by
  intro d
  induction d with
  | nil => intro q h; simp at h
  | cons kv rest ih =>
    intro q h
    obtain ⟨k, v⟩ := kv
    rw [List.map_cons, List.mem_cons] at h
    by_cases hq : k = q
    · simp [List.lookup, hq]
    · have hmem : q ∈ rest.map Prod.fst := by
        cases h with
        | inl h => exact absurd h.symm hq
        | inr h => exact h
      have hbq : (q == k) = false := beq_eq_false_iff_ne.mpr (fun h => hq h.symm)
      simp [List.lookup, hbq, ih q hmem]

theorem lookup_eq_none_of_notMem_keys : ∀ (d : List (String × ℚ)) (q : String),
    q ∉ d.map Prod.fst → List.lookup q d = none := by
  intro d
  induction d with
  | nil => intro q _; rfl
  | cons kv rest ih =>
    intro q h
    obtain ⟨k, v⟩ := kv
    rw [List.map_cons, List.mem_cons] at h
    push_neg at h
    have hbq : (q == k) = false := beq_eq_false_iff_ne.mpr h.1
    simp [List.lookup, hbq, ih q h.2]

theorem setItems_attrs_mem : ∀ (d : List (String × ℚ)) (m : FunctionModel)
    (q : String), (d.map Prod.fst).Nodup → q ∈ d.map Prod.fst →
    (setItems m d).attrs q = List.lookup q d := by
  intro d
  induction d with
  | nil => intro m q _ h; simp at h
  | cons kv rest ih =>
    intro m q hnd hq
    obtain ⟨k, v⟩ := kv
    rw [List.map_cons] at hnd hq
    by_cases hqk : q = k
    · subst hqk
      have hnotin : q ∉ rest.map Prod.fst := (List.nodup_cons.1 hnd).1
      rw [setItems, setItems_attrs_notMem rest _ q hnotin]
      simp [setattr, List.lookup]
    · have hmem : q ∈ rest.map Prod.fst := (List.mem_cons.1 hq).resolve_left hqk
      rw [setItems, ih _ q (List.nodup_cons.1 hnd).2 hmem]
      have hbq : (q == k) = false := beq_eq_false_iff_ne.mpr hqk
      simp [List.lookup, hbq]

theorem map_lookup_zip_self : ∀ (ks : List String) (ds : List ℚ), ks.Nodup →
    ds.length = ks.length →
    ks.map (fun p => (List.lookup p (ks.zip ds)).getD 1) = ds := by
  intro ks
  induction ks with
  | nil =>
    intro ds _ hlen
    rw [List.length_nil, List.length_eq_zero] at hlen
    subst hlen
    rfl
  | cons k ks ih =>
    intro ds hnd hlen
    cases ds with
    | nil => simp at hlen
    | cons d ds =>
      have hk : k ∉ ks := (List.nodup_cons.1 hnd).1
      rw [List.zip_cons_cons]
      simp only [List.map_cons]
      have hhead : (List.lookup k ((k, d) :: ks.zip ds)).getD 1 = d := by
        simp [List.lookup]
      have hstep : List.map (fun p => (List.lookup p ((k, d) :: ks.zip ds)).getD 1) ks
          = List.map (fun p => (List.lookup p (ks.zip ds)).getD 1) ks := by
        apply List.map_congr_left
        intro q hq
        have hbq : (q == k) = false := beq_eq_false_iff_ne.mpr (fun h => hk (h ▸ hq))
        simp [List.lookup, hbq]
      rw [hhead, hstep, ih ds (List.nodup_cons.1 hnd).2 (by simpa using hlen)]

/-- C9: in every model state — after construction and after any sequence of
parameter assignments, parvals/pardict updates or fits — the value tuple the
parvals property returns has exactly one entry per name in params, so
`len(params) == len(parvals)` always holds. -/
theorem claim_params_parvals_same_length (m : FunctionModel) :
    ((getParvals m).1).length = (params m).length := by
  rw [getParvals, params]
  split
  · rw [parvalsPure, List.length_map]
  · rw [parvalsPure, List.length_map]
    rfl

/-- C10: assigning k scalar values to parvals succeeds silently whenever
k ≤ m (k < m included), updating exactly the first k parameters in params
order and keeping the remaining values, and raises ValueError exactly when
k > m, mutating nothing. -/
theorem claim_setParvals_shorter (m : FunctionModel) (vs : List ℚ)
    (hnd : m.pars.Nodup) :
    (vs.length ≤ m.pars.length →
      setParvals m vs = (setItems m (m.pars.zip vs), .ok ()) ∧
      parvalsPure (setItems m (m.pars.zip vs)) =
        vs ++ (parvalsPure m).drop vs.length) ∧
    (vs.length > m.pars.length → setParvals m vs = (m, .error .valueError)) := by
  constructor
  · intro hle
    constructor
    · rw [setParvals, if_neg (by omega)]
    · rw [parvalsPure, setItems_pars,
        map_valueOf_setItems_zip m.pars vs m hnd hle, parvalsPure,
        List.map_drop]
  · intro hgt
    rw [setParvals, if_pos hgt]

/-- Witness for C10: on the three-parameter model with values (10, 20, 30),
assigning two values updates only the first two parameters, while assigning
four raises ValueError and leaves the model untouched. -/
theorem claim_setParvals_shorter_witness :
    setParvals demo3 [1, 2] = (setItems demo3 (demo3.pars.zip [1, 2]), .ok ()) ∧
    parvalsPure (setItems demo3 (demo3.pars.zip [1, 2])) = [1, 2, 30] ∧
    setParvals demo3 [1, 2, 3, 4] = (demo3, .error .valueError) := by
  have h := (claim_setParvals_shorter demo3 [1, 2] (by decide)).1 (by decide)
  have h2 := (claim_setParvals_shorter demo3 [1, 2, 3, 4] (by decide)).2 (by decide)
  exact ⟨h.1, h.2.trans rfl, h2⟩

/-- C8: for a dictionary `d` whose keys are exactly the model's parameter
names (and scalar values), assigning pardict = d succeeds and reading
pardict back returns a dictionary equal to d. -/
theorem claim_pardict_roundtrip (m : FunctionModel) (d : List (String × ℚ))
    (hnd : (d.map Prod.fst).Nodup)
    (hcov : ∀ k, k ∈ m.pars ↔ k ∈ d.map Prod.fst) :
    (setPardict m d).2 = .ok () ∧
    ∀ k, (getPardict (setPardict m d).1).1 k = List.lookup k d := by
  have hall : (d.all (fun kv => decide (kv.1 ∈ m.pars))) = true := by
    rw [List.all_eq_true]
    intro kv hkv
    exact decide_eq_true ((hcov kv.1).2 (List.mem_map_of_mem Prod.fst hkv))
  have hsp : setPardict m d = (setItems m d, .ok ()) := by
    rw [setPardict, if_pos hall]
  refine ⟨by rw [hsp], ?_⟩
  intro k
  rw [hsp]
  have hinit : ((setItems m d).pars.all
      (fun p => ((setItems m d).attrs p).isSome)) = true := by
    rw [setItems_pars, List.all_eq_true]
    intro p hp
    have hk : p ∈ d.map Prod.fst := (hcov p).1 hp
    rw [setItems_attrs_mem d m p hnd hk]
    exact lookup_isSome_of_mem_keys d p hk
  rw [getPardict, if_pos hinit]
  simp only [setItems_pars]
  by_cases hk : k ∈ m.pars
  · rw [if_pos hk, setItems_attrs_mem d m k hnd ((hcov k).1 hk)]
  · rw [if_neg hk,
      lookup_eq_none_of_notMem_keys d k (fun hmem => hk ((hcov k).2 hmem))]

/-- Witness for C8: the round trip at the three-parameter model with
d = ("a" 7, "b" 8, "c" 9). -/
theorem claim_pardict_roundtrip_witness :
    (setPardict demo3 [("a", 7), ("b", 8), ("c", 9)]).2 = .ok () ∧
    (getPardict (setPardict demo3 [("a", 7), ("b", 8), ("c", 9)]).1).1 "a" = some 7 ∧
    (getPardict (setPardict demo3 [("a", 7), ("b", 8), ("c", 9)]).1).1 "b" = some 8 ∧
    (getPardict (setPardict demo3 [("a", 7), ("b", 8), ("c", 9)]).1).1 "c" = some 9 ∧
    (getPardict (setPardict demo3 [("a", 7), ("b", 8), ("c", 9)]).1).1 "z" = none := by
  have h := claim_pardict_roundtrip demo3 [("a", 7), ("b", 8), ("c", 9)]
    (by decide) (fun k => Iff.rfl)
  exact ⟨h.1, (h.2 "a").trans rfl, (h.2 "b").trans rfl, (h.2 "c").trans rfl,
    (h.2 "z").trans rfl⟩

/-- C3: fitData called on data whose shape does not match the model output
raises ModelTypeError, and the model comes out exactly as it went in — no
parameter value changed, fitteddata and lastfit not updated. -/
theorem claim_fitData_shape_mismatch (lsq : (List ℚ → List ℚ) → List ℚ → List ℚ)
    (m : FunctionModel) (x y : List ℚ) (weights : Option (List ℚ))
    (contraction : String) (updatepars savedata : Bool)
    (hinit : ∀ p ∈ m.pars, (m.attrs p).isSome = true)
    (hmis : (m.f x (parvalsPure m)).length ≠ y.length) :
    fitData lsq m x y weights contraction updatepars savedata =
      (m, .error .modelTypeError) := by
  simp only [fitData.eq_def, getParvals_of_init m hinit]
  rw [if_pos hmis]

/-- Witness for C3: the identity model on x of length 1 against y of
length 2. -/
theorem claim_fitData_shape_mismatch_witness :
    ((∀ p ∈ demoId.pars, (demoId.attrs p).isSome = true) ∧
      (demoId.f [1] (parvalsPure demoId)).length ≠ [1, 2].length) ∧
    fitData lsqId demoId [1] [1, 2] none "sumsq" true true =
      (demoId, .error .modelTypeError) :=
  ⟨⟨by simp [demoId], by decide⟩,
   claim_fitData_shape_mismatch lsqId demoId [1] [1, 2] none "sumsq" true true
     (by simp [demoId]) (by decide)⟩

/-- C5 evaluated: on a well-shaped dataset bootstrapFits reaches the
`if prefit:` statement and raises NameError (`prefit`, `xi`, `yi`, `vs` are
all undefined), instead of resampling with replacement n times and
returning the per-parameter distributions the claim states; the model is
not refitted. -/
theorem claim_bootstrapFits_nameerror :
    bootstrapFits demoId [1, 2] [3, 4] 250 = (demoId, .error .nameError) := rfl

/-- C2 evaluated: for the parameterless constant-2 model on x = (1,2),
y = (4,4), chi2Data computes dof = n - m - 1 = 1 and p = chisqprob(chi2, dof)
as claimed, but chi2 = sum(((y-f)^2/f)^2) = 8 — the square applied twice —
while the claim's single-square Pearson statistic over the same values is 4;
and for a model with one or more parameters chi2Data raises TypeError
outright, because line 583 passes the parameter values as extra positional
arguments to `__call__`. -/
theorem claim_chi2Data_double_square (chisqprob : ℚ → ℤ → ℚ) :
    chi2Data chisqprob demoConst2 [1, 2] [4, 4] = .ok (8, 8, chisqprob 8 1) ∧
    chi2Pearson [4, 4] (callModel demoConst2 [1, 2]) = 4 ∧
    chi2Data chisqprob demoOnePar [1] [1] = .error .typeError := by
  refine ⟨?_, ?_, rfl⟩
  · norm_num [chi2Data, callModel, getParvals, parvalsPure, demoConst2, valueOf,
      List.replicate_succ]
  · norm_num [chi2Pearson, callModel, getParvals, parvalsPure, demoConst2, valueOf,
      List.replicate_succ]

/-- C4 evaluated: requesting a generic scalar minimizer with the raw
(non-squared, non-absolute, non-fractional) per-point residual and the 'sum'
reduction makes the objective evaluation raise TypeError — the raw branch of
g1 returns the np.diff function object instead of the residual vector — while
the claim prescribes the reduction of the weighted raw residuals, which on
this input is 3. -/
theorem claim_scalarObjective_raw_broken :
    scalarObjective "sum" [1, 1] (fun x _ => x) [] [1, 2] [2, 4] =
      .error .typeError ∧
    rawResidualReduced (fun l => l.sum) [1, 1] (fun x _ => x) [] [1, 2] [2, 4] = 3 := by
  refine ⟨rfl, ?_⟩
  norm_num [rawResidualReduced]

/-- C6: a model function f(self, x, a=2, b=3) — and in general f(self, x,
args...) with trailing declared defaults — yields one parameter per fixed
non-data argument, defaulting to the declared default or to 1 when none is
declared, and the constructed model reads those defaults back as params and
parvals. -/
theorem claim_autoparams_defaults (f0 : List ℚ → List ℚ → List ℚ)
    (xname : String) (rest : List String) (ds : List ℚ)
    (hnd : rest.Nodup) (hlen : ds.length ≤ rest.length) :
    autoParamsOfSpec ⟨"self" :: xname :: rest, false, false, ds⟩ =
      .ok (rest.zip (List.replicate (rest.length - ds.length) 1 ++ ds), false) ∧
    params (mkAutoModel f0
      (rest.zip (List.replicate (rest.length - ds.length) 1 ++ ds))) = rest ∧
    parvalsPure (mkAutoModel f0
      (rest.zip (List.replicate (rest.length - ds.length) 1 ++ ds))) =
      List.replicate (rest.length - ds.length) 1 ++ ds := by
  have hdslen : (List.replicate (rest.length - ds.length) (1 : ℚ) ++ ds).length
      = rest.length := by
    rw [List.length_append, List.length_replicate]
    omega
  have hpars : params (mkAutoModel f0
      (rest.zip (List.replicate (rest.length - ds.length) 1 ++ ds))) = rest := by
    simp only [params, mkAutoModel]
    exact List.map_fst_zip rest _ (le_of_eq hdslen.symm)
  refine ⟨?_, hpars, ?_⟩
  · rw [autoParamsOfSpec.eq_def]
    simp only [List.mem_cons, List.erase_cons_head]
    by_cases he : rest.length = ds.length
    · simp [he, Nat.sub_self]
    · simp [he]
  · rw [parvalsPure, show (mkAutoModel f0
      (rest.zip (List.replicate (rest.length - ds.length) 1 ++ ds))).pars = rest
      from hpars]
    exact map_lookup_zip_self rest _ hnd hdslen

/-- Witness for C6: the signature f(self, x, a=2, b=3) gives
params ('a','b') and parvals (2,3). -/
theorem claim_autoparams_defaults_witness :
    autoParamsOfSpec ⟨["self", "x", "a", "b"], false, false, [2, 3]⟩ =
      .ok ([("a", 2), ("b", 3)], false) ∧
    params (mkAutoModel (fun x _ => x) [("a", 2), ("b", 3)]) = ["a", "b"] ∧
    parvalsPure (mkAutoModel (fun x _ => x) [("a", 2), ("b", 3)]) = [2, 3] := by
  have h := claim_autoparams_defaults (fun x _ => x) "x" ["a", "b"] [2, 3]
    (by decide) (by decide)
  exact ⟨h.1, h.2.1, h.2.2⟩

/-- Parameter values read back unchanged after re-assigning every parameter
its own current value (the write-back the composite evaluation performs). -/
theorem parvals_rewrite_self (m : FunctionModel) (hnd : m.pars.Nodup) :
    parvalsPure (setItems m (m.pars.zip (parvalsPure m))) = parvalsPure m := by
  have hlen2 : (parvalsPure m).length = m.pars.length := by
    rw [parvalsPure, List.length_map]
  have h := map_valueOf_setItems_zip m.pars (parvalsPure m) m hnd (le_of_eq hlen2)
  rw [hlen2, List.drop_length, List.map_nil, List.append_nil] at h
  rw [parvalsPure, setItems_pars]
  exact h

/-- C7: a composite of exactly two submodels under the single operator '+',
evaluated with parameter arguments equal to the submodels' own current
values, returns model_a(x) + model_b(x); the operator tuple built from the
operation string '+' is ('+',). -/
theorem claim_composite_plus (ma mb : FunctionModel) (x : List ℚ)
    (hna : ma.pars.Nodup) (hnb : mb.pars.Nodup)
    (hia : ∀ p ∈ ma.pars, (ma.attrs p).isSome = true)
    (hib : ∀ p ∈ mb.pars, (mb.attrs p).isSome = true) :
    compositeOps "+" 2 = ["+"] ∧
    compositeF2 "+" ma mb x (parvalsPure ma) (parvalsPure mb) =
      some (List.zipWith (· + ·) (callModel ma x) (callModel mb x)) := by
  refine ⟨rfl, ?_⟩
  rw [compositeF2.eq_def]
  simp only [setItems_f]
  rw [parvals_rewrite_self ma hna, parvals_rewrite_self mb hnb,
    callModel_of_init ma x hia, callModel_of_init mb x hib]
  simp

/-- Witness for C7: the scale model (a=2) plus the constant model (c=5) on
x = (1,2,3) evaluates to (7,9,11) = 2*x + 5. -/
theorem claim_composite_plus_witness :
    (demoScale.pars.Nodup ∧ demoConst5.pars.Nodup) ∧
    compositeF2 "+" demoScale demoConst5 [1, 2, 3]
      (parvalsPure demoScale) (parvalsPure demoConst5) = some [7, 9, 11] := by
  have h := (claim_composite_plus demoScale demoConst5 [1, 2, 3]
    (by decide) (by decide) (by decide) (by decide)).2
  refine ⟨⟨by decide, by decide⟩, h.trans ?_⟩
  norm_num [callModel, getParvals, parvalsPure, valueOf, demoScale, demoConst5,
    List.replicate_succ]

/-- C1 evaluated: after registering the Gauss class under 'gauss', a second
registration of a different class under the same name with overwrite False
succeeds and silently replaces the entry (lookup returns the new class),
while the same call with overwrite True raises KeyError — line 2155 reads
`if overwrite and name in __model_registry`, inverting the documented
duplicate-name behaviour the claim states. -/
theorem claim_register_model_inverted :
    register_model emptyRegistry gaussC (some "gauss") false true = .ok regGauss ∧
    register_model regGauss otherC (some "gauss") false true = .ok regGaussOther ∧
    regGaussOther "gauss" = some otherC ∧
    get_model regGaussOther "gauss" = .ok otherC ∧
    register_model regGauss otherC (some "gauss") true true = .error .keyError :=
  ⟨rfl, rfl, rfl, rfl, rfl⟩

end Modcore
